import Mathlib

/-!
Verification of the glasgow-api music metadata service.

This file gives a shallow embedding, in Lean 4, of the data-consistency
core of the service: the favorites and playlist collection manager, the
SQLite-to-PostgreSQL migration pipeline, the 512-dimensional embedding
ingestion pipeline, and the two nearest-neighbor search paths
(`find_similar_tracks_by_512_embedding` over embeddings and
`get_track_neighbors` over 3-D visualization coordinates), all from
`app/services/postgres/service.py` and
`app/services/visualization/SPHERIE_service.py`.

Database tables are modeled as Lean lists of rows, SQL statements as the
corresponding list operations, and HTTP errors as explicit result values.
Real-valued quantities produced by the store (Euclidean distances) are
modeled over the rationals for the computable part, with `Real.sqrt`
applied at the statement level.
-/

namespace GlasgowAPI

abbrev TrackId := Nat
abbrev UserId := Nat

/-! ### Favorites (`add_favorite`, service.py lines 114-146)

The `favorites` table has a UNIQUE(user_id, track_id) constraint; it is
modeled as a list of (user, track) pairs.  `add_favorite` first counts the
user's favorites and rejects with HTTP 400 at 20, then checks that the
track exists in `megaset` (404 otherwise), then inserts with
ON CONFLICT DO NOTHING, reporting a no-op "already in favorites" outcome
when the pair was already present. -/

inductive FavOutcome where
  | added
  | alreadyInFavorites
  | capacityError
  | trackNotFound
deriving DecidableEq

/-- Number of favorites rows of a user: SELECT COUNT(*) FROM favorites WHERE user_id = u. -/
def favCount (favs : List (UserId × TrackId)) (u : UserId) : Nat :=
  (favs.filter (fun p => p.1 == u)).length

/-- Shallow embedding of `add_favorite(user_id, track_id)`.  `megaset` is the
list of existing track ids; `favs` the favorites table.  Returns the outcome
together with the new table state. -/
def add_favorite (megaset : List TrackId) (favs : List (UserId × TrackId))
    (u : UserId) (t : TrackId) : FavOutcome × List (UserId × TrackId) :=
  if 20 ≤ favCount favs u then
    (.capacityError, favs)
  else if !(megaset.contains t) then
    (.trackNotFound, favs)
  else if favs.contains (u, t) then
    (.alreadyInFavorites, favs)
  else
    (.added, favs ++ [(u, t)])

/-- Sequential calls of `add_favorite` for a list of tracks, collecting the
outcome of each call. -/
def runFavAdds (megaset : List TrackId) (u : UserId)
    (favs : List (UserId × TrackId)) :
    List TrackId → List FavOutcome × List (UserId × TrackId)
  | [] => ([], favs)
  | t :: ts =>
    let r := add_favorite megaset favs u t
    let rest := runFavAdds megaset u r.2 ts
    (r.1 :: rest.1, rest.2)

/-- Splitting a sequence of `add_favorite` calls at an append. -/
theorem runFavAdds_append (m : List TrackId) (u : UserId)
    (favs : List (UserId × TrackId)) (l1 l2 : List TrackId) :
    runFavAdds m u favs (l1 ++ l2) =
      ((runFavAdds m u favs l1).1 ++
        (runFavAdds m u (runFavAdds m u favs l1).2 l2).1,
       (runFavAdds m u (runFavAdds m u favs l1).2 l2).2) := by
  induction l1 generalizing favs with
  | nil => simp [runFavAdds]
  | cons t l ih => simp [runFavAdds, ih]

/-- Counting favorites of a user over a table that pairs that user with each
element of a track list gives the length of the track list. -/
theorem favCount_userPairs (u : UserId) (done : List TrackId) :
    favCount (done.map fun s => (u, s)) u = done.length := by
  unfold favCount
  rw [List.filter_eq_self.mpr, List.length_map]
  intro p hp
  simp only [List.mem_map] at hp
  obtain ⟨t, _, rfl⟩ := hp
  simp

/-- A fresh, existing track added below capacity succeeds and is appended. -/
theorem add_favorite_fresh (m : List TrackId) (u : UserId)
    (done : List TrackId) (t : TrackId)
    (hlt : done.length < 20) (hm : t ∈ m) (hnotin : t ∉ done) :
    add_favorite m (done.map fun s => (u, s)) u t =
      (.added, (done ++ [t]).map fun s => (u, s)) := by
  unfold add_favorite
  rw [favCount_userPairs, if_neg (by omega), if_neg (by simp [hm]), if_neg (by simp [hnotin])]
  simp

/-- Once a user holds 20 favorites, `add_favorite` raises the capacity error
(HTTP 400) no matter which track is passed — in particular even for a track
already among the favorites, because the capacity check precedes the
ON CONFLICT duplicate handling. -/
theorem add_favorite_at_capacity (m : List TrackId)
    (favs : List (UserId × TrackId)) (u : UserId) (t : TrackId)
    (h : 20 ≤ favCount favs u) :
    add_favorite m favs u t = (.capacityError, favs) := by
  unfold add_favorite
  rw [if_pos h]

/-- Sequentially adding distinct fresh existing tracks within capacity
succeeds at every step and accumulates the corresponding pairs. -/
theorem runFavAdds_fresh (m : List TrackId) (u : UserId) :
    ∀ (ts done : List TrackId), (done ++ ts).Nodup →
      done.length + ts.length ≤ 20 → (∀ t ∈ ts, t ∈ m) →
      runFavAdds m u (done.map fun s => (u, s)) ts =
        (List.replicate ts.length .added, (done ++ ts).map fun s => (u, s))
  | [], done, _, _, _ => by simp [runFavAdds]
  | t :: ts, done, hnd, hle, hmem => by
    have hlt : done.length < 20 := by
      simp only [List.length_cons] at hle; omega
    have hnotin : t ∉ done := by
      have := List.disjoint_of_nodup_append hnd
      intro hc
      exact this hc (List.mem_cons_self t ts)
    have hstep := add_favorite_fresh m u done t hlt (hmem t (List.mem_cons_self t ts)) hnotin
    have hnd2 : ((done ++ [t]) ++ ts).Nodup := by
      rw [List.append_assoc]; exact hnd
    have hle2 : (done ++ [t]).length + ts.length ≤ 20 := by
      simp only [List.length_append, List.length_singleton]
      simp only [List.length_cons] at hle; omega
    have ih := runFavAdds_fresh m u ts (done ++ [t]) hnd2 hle2
      (fun s hs => hmem s (List.mem_cons_of_mem _ hs))
    simp only [runFavAdds, hstep, ih, List.append_assoc, List.singleton_append,
      List.length_cons, List.replicate_succ]

/-- Claim C1, counterexample: with tracks 1..21 all existing and a user with
no favorites, the 22nd `add_favorite` call — whose track 1 is already among
the user's favorites at that point — returns the capacity error, not the
idempotent "already in favorites" no-op the claim asserts. -/
theorem add_favorite_22nd_call_not_noop :
    (runFavAdds (List.range' 1 21) 7 [] (List.range' 1 21 ++ [1])).1.getLast? =
        some FavOutcome.capacityError ∧
    (runFavAdds (List.range' 1 21) 7 [] (List.range' 1 21 ++ [1])).1.getLast? ≠
        some FavOutcome.alreadyInFavorites ∧
    1 ∈ ((runFavAdds (List.range' 1 21) 7 [] (List.range' 1 21)).2.map Prod.snd) := by
  decide

/-- Claim C1, amended: for a user with no favorites and 21 distinct existing
tracks, the first 20 `add_favorite` calls succeed, the 21st fails with the
capacity error (400), and a 22nd call whose track is already among the
user's favorites ALSO fails with the capacity error — the capacity check
runs before the duplicate no-op, so the idempotent success is only
reachable below the 20-favorite ceiling. -/
theorem add_favorite_capacity_sequence
    (megaset : List TrackId) (u : UserId) (ts : List TrackId) (textra : TrackId)
    (hlen : ts.length = 21) (hnd : ts.Nodup) (hmem : ∀ t ∈ ts, t ∈ megaset)
    (hextra : textra ∈ ts.take 20) :
    (runFavAdds megaset u [] (ts ++ [textra])).1 =
      List.replicate 20 FavOutcome.added ++ [.capacityError, .capacityError] ∧
    textra ∈ ((runFavAdds megaset u [] ts).2.map Prod.snd) := by
  obtain ⟨t21, hdrop⟩ : ∃ a, ts.drop 20 = [a] := by
    apply List.length_eq_one.mp
    rw [List.length_drop, hlen]
  have hsplit : ts = ts.take 20 ++ [t21] := by
    rw [← hdrop, List.take_append_drop]
  have htknd : ([] ++ ts.take 20).Nodup := by
    simpa using (List.Sublist.nodup (List.take_sublist 20 ts) hnd)
  have htklen : (ts.take 20).length = 20 := by
    rw [List.length_take, hlen]; decide
  have h20 := runFavAdds_fresh megaset u (ts.take 20) [] htknd
    (by simp only [List.length_nil, htklen]; omega)
    (fun t ht => hmem t (List.mem_of_mem_take ht))
  simp only [List.nil_append, List.map_nil, htklen] at h20
  have hcap : 20 ≤ favCount ((ts.take 20).map fun s => (u, s)) u := by
    rw [favCount_userPairs, htklen]
  constructor
  · rw [hsplit, List.append_assoc]
    rw [runFavAdds_append megaset u [] (ts.take 20) ([t21] ++ [textra])]
    rw [h20]
    simp only [List.singleton_append, runFavAdds,
      add_favorite_at_capacity megaset _ u t21 hcap,
      add_favorite_at_capacity megaset _ u textra hcap]
  · rw [hsplit, runFavAdds_append megaset u [] (ts.take 20) [t21], h20]
    simp only [runFavAdds, add_favorite_at_capacity megaset _ u t21 hcap]
    simpa using hextra

/-- Witness for `add_favorite_capacity_sequence` at tracks 1..21 with the
22nd call repeating track 1. -/
theorem add_favorite_capacity_sequence_witness :
    (List.range' 1 21).length = 21 ∧ (List.range' 1 21).Nodup ∧
    (∀ t ∈ List.range' 1 21, t ∈ List.range' 1 21) ∧
    1 ∈ (List.range' 1 21).take 20 ∧
    ((runFavAdds (List.range' 1 21) 7 [] (List.range' 1 21 ++ [1])).1 =
      List.replicate 20 FavOutcome.added ++ [.capacityError, .capacityError] ∧
     1 ∈ ((runFavAdds (List.range' 1 21) 7 [] (List.range' 1 21)).2.map Prod.snd)) :=
  ⟨by decide, by decide, fun t ht => ht, by decide,
   add_favorite_capacity_sequence (List.range' 1 21) 7 (List.range' 1 21) 1
     (by decide) (by decide) (fun t ht => ht) (by decide)⟩

/-! ### Playlists (`add_track_to_playlist` lines 358-402,
`remove_track_from_playlist` lines 405-447)

The `playlist_tracks` table carries UNIQUE(playlist_id, track_id) and
UNIQUE(playlist_id, position) constraints.  A single playlist's rows are
modeled as a list of (track, position) entries; operations on other
playlists never touch these rows, and an ownership-check failure (playlist
belonging to another user) leaves the table unchanged, so the model works
at the granularity of one playlist.  `add_track_to_playlist` rejects at 20
tracks, rejects unknown tracks, computes the next position as
COALESCE(MAX(position), 0) + 1 and inserts with ON CONFLICT DO NOTHING
(the insert is skipped when either unique constraint would be violated).
`remove_track_from_playlist` looks up the entry's position, errors if
absent, deletes it, then decrements the position of every entry with a
greater position. -/

structure PlaylistEntry where
  track : TrackId
  pos : Nat
deriving DecidableEq

inductive PlOutcome where
  | added
  | alreadyInPlaylist
  | capacityError
  | trackNotFound
  | removed
  | trackNotInPlaylist
deriving DecidableEq

/-- Next position: SELECT COALESCE(MAX(position), 0) + 1. -/
def nextPosition (es : List PlaylistEntry) : Nat :=
  (es.map (fun e => e.pos)).foldr max 0 + 1

/-- Shallow embedding of `add_track_to_playlist` restricted to one playlist
whose entries are `es`; `megaset` is the list of existing track ids. -/
def add_track_to_playlist (megaset : List TrackId) (es : List PlaylistEntry)
    (t : TrackId) : PlOutcome × List PlaylistEntry :=
  if 20 ≤ es.length then
    (.capacityError, es)
  else if !(megaset.contains t) then
    (.trackNotFound, es)
  else if es.any (fun e => e.track == t || e.pos == nextPosition es) then
    (.alreadyInPlaylist, es)
  else
    (.added, es ++ [⟨t, nextPosition es⟩])

/-- Shallow embedding of `remove_track_from_playlist` restricted to one
playlist: fetch the entry's position, delete the entry, decrement every
strictly greater position. -/
def remove_track_from_playlist (es : List PlaylistEntry) (t : TrackId) :
    PlOutcome × List PlaylistEntry :=
  match es.find? (fun e => e.track == t) with
  | none => (.trackNotInPlaylist, es)
  | some e =>
    let deleted := es.filter (fun x => !(x.track == t))
    (.removed, deleted.map (fun x => if e.pos < x.pos then ⟨x.track, x.pos - 1⟩ else x))

/-- One playlist mutation: an `add_track_to_playlist` or a
`remove_track_from_playlist` call (errors leave the state unchanged). -/
inductive PlaylistOp where
  | add (t : TrackId)
  | remove (t : TrackId)

def applyPlaylistOp (megaset : List TrackId) (es : List PlaylistEntry) :
    PlaylistOp → List PlaylistEntry
  | .add t => (add_track_to_playlist megaset es t).2
  | .remove t => (remove_track_from_playlist es t).2

def applyPlaylistOps (megaset : List TrackId) (es : List PlaylistEntry)
    (ops : List PlaylistOp) : List PlaylistEntry :=
  ops.foldl (applyPlaylistOp megaset) es

/-- Dense-ordering invariant: the positions of the entries are exactly the
contiguous sequence 1..N (as a multiset), where N is the entry count. -/
def PositionsDense (es : List PlaylistEntry) : Prop :=
  (es.map (fun e => e.pos)).Perm (List.range' 1 es.length)

/-- Full playlist invariant: dense positions plus unique track membership
(the UNIQUE(playlist_id, track_id) constraint). -/
def PlaylistInv (es : List PlaylistEntry) : Prop :=
  PositionsDense es ∧ (es.map (fun e => e.track)).Nodup

/-- Evaluating the SQL MAX over the contiguous block s+1 .. s+n. -/
theorem foldr_max_range' (s n : Nat) :
    List.foldr max 0 (List.range' (s + 1) n) = if n = 0 then 0 else s + n := by
  induction n generalizing s with
  | zero => simp
  | succ k ih =>
    rw [List.range'_succ]
    simp only [List.foldr_cons]
    have := ih (s + 1)
    rw [this]
    rcases Nat.eq_zero_or_pos k with hk | hk
    · subst hk; simp
    · rw [if_neg (by omega), if_neg (by omega)]
      omega

/-- MAX over the contiguous block 1..n equals n. -/
theorem foldr_max_range_one (n : Nat) : List.foldr max 0 (List.range' 1 n) = n := by
  have := foldr_max_range' 0 n
  simp only [Nat.zero_add] at this
  rw [this]
  rcases Nat.eq_zero_or_pos n with h | h
  · simp [h]
  · rw [if_neg (by omega)]

/-- Under the dense invariant the computed next position is N + 1. -/
theorem nextPosition_of_dense (es : List PlaylistEntry) (h : PositionsDense es) :
    nextPosition es = es.length + 1 := by
  unfold nextPosition
  haveI : LeftCommutative (max : Nat → Nat → Nat) := ⟨fun a b c => Nat.max_left_comm a b c⟩
  rw [h.foldr_eq 0, foldr_max_range_one]

/-- Adding a track preserves the playlist invariant. -/
theorem playlistInv_add (megaset : List TrackId) (es : List PlaylistEntry)
    (t : TrackId) (h : PlaylistInv es) :
    PlaylistInv (add_track_to_playlist megaset es t).2 := by
  unfold add_track_to_playlist
  split
  · exact h
  · split
    · exact h
    · split
      · exact h
      · rename_i hcap hmem hany
        have hnext := nextPosition_of_dense es h.1
        constructor
        · unfold PositionsDense
          rw [List.map_append, List.length_append]
          simp only [List.map_cons, List.map_nil, List.length_cons, List.length_nil]
          rw [hnext]
          have hr : List.range' 1 (es.length + 1) =
              List.range' 1 es.length ++ [es.length + 1] := by
            rw [List.range'_1_concat]
            simp [Nat.add_comm]
          rw [hr]
          exact h.1.append_right [es.length + 1]
        · rw [List.map_append]
          apply List.Nodup.append h.2 (by simp)
          intro a ha hb
          simp only [List.map_cons, List.map_nil, List.mem_singleton] at hb
          subst hb
          simp only [Bool.not_eq_true, List.any_eq_false, Bool.or_eq_false_iff,
            beq_eq_false_iff_ne] at hany
          simp only [List.mem_map] at ha
          obtain ⟨x, hx, hxa⟩ := ha
          exact (hany x hx).1 hxa

/-- With unique track membership, the list splits (up to permutation) into
the entry found for a track and the rows surviving the DELETE. -/
theorem perm_find_filter (es : List PlaylistEntry) (t : TrackId)
    (e : PlaylistEntry)
    (hnd : (es.map (fun x => x.track)).Nodup)
    (hfind : es.find? (fun x => x.track == t) = some e) :
    es.Perm (e :: es.filter (fun x => !(x.track == t))) := by
  induction es with
  | nil => simp at hfind
  | cons a es ih =>
    simp only [List.map_cons, List.nodup_cons] at hnd
    by_cases hat : (a.track == t) = true
    · rw [List.find?_cons_of_pos (p := fun x => x.track == t) es hat] at hfind
      cases hfind
      have hrest : es.filter (fun x => !(x.track == t)) = es := by
        rw [List.filter_eq_self]
        intro x hx
        simp only [Bool.not_eq_true', beq_eq_false_iff_ne]
        intro hxt
        exact hnd.1 (by
          have hex : e.track = x.track := by rw [eq_of_beq hat, hxt]
          rw [hex]
          exact List.mem_map_of_mem _ hx)
      rw [List.filter_cons, if_neg (by simp [hat]), hrest]
    · rw [List.find?_cons_of_neg (p := fun x => x.track == t) es hat] at hfind
      have hperm := ih hnd.2 hfind
      rw [List.filter_cons, if_pos (by simp [hat])]
      exact (hperm.cons a).trans (List.Perm.swap e a _)

/-- Decrementing by one shifts a contiguous block down by one. -/
theorem map_pred_range' (s b : Nat) :
    (List.range' (s + 1) b).map (fun y => y - 1) = List.range' s b := by
  induction b generalizing s with
  | zero => simp
  | succ k ih =>
    rw [List.range'_succ, List.range'_succ]
    simp only [List.map_cons, Nat.add_sub_cancel]
    rw [ih (s + 1)]

/-- Deleting position p from the dense block 1..n and decrementing every
strictly greater position yields the dense block 1..n-1. -/
theorem erase_dec_range' (p n : Nat) (h1 : 1 ≤ p) (h2 : p ≤ n) :
    ((List.range' 1 n).erase p).map (fun y => if p < y then y - 1 else y) =
      List.range' 1 (n - 1) := by
  obtain ⟨a, rfl⟩ : ∃ a, p = a + 1 := ⟨p - 1, by omega⟩
  obtain ⟨b, rfl⟩ : ∃ b, n = (a + 1) + b := ⟨n - (a + 1), by omega⟩
  have hsplit : List.range' 1 (a + 1 + b) =
      List.range' 1 a ++ List.range' (1 + a) (b + 1) := by
    have h12 := List.range'_append 1 a (b + 1) 1
    simp only [Nat.one_mul] at h12
    have hn : a + 1 + b = b + 1 + a := by omega
    rw [hn]
    exact h12.symm
  rw [hsplit, List.range'_succ]
  have hnotmem : (a + 1) ∉ List.range' 1 a := by
    intro hc
    rw [List.mem_range'] at hc
    obtain ⟨i, hi, heq⟩ := hc
    omega
  rw [List.erase_append, if_neg (by simpa using hnotmem)]
  have hhead : (((1 + a) :: List.range' (1 + a + 1) b).erase (a + 1)) =
      List.range' (1 + a + 1) b := by
    have : 1 + a = a + 1 := by omega
    rw [this, List.erase_cons_head]
  rw [hhead, List.map_append]
  have hleft : (List.range' 1 a).map (fun y => if a + 1 < y then y - 1 else y) =
      List.range' 1 a := by
    have hcg : (List.range' 1 a).map (fun y => if a + 1 < y then y - 1 else y) =
        (List.range' 1 a).map (fun y => y) := by
      apply List.map_congr_left
      intro y hy
      rw [List.mem_range'] at hy
      obtain ⟨i, hi, rfl⟩ := hy
      rw [if_neg (by omega)]
    rw [hcg]
    simp
  have hright : (List.range' (1 + a + 1) b).map (fun y => if a + 1 < y then y - 1 else y) =
      List.range' (a + 1) b := by
    have hcg : (List.range' (1 + a + 1) b).map (fun y => if a + 1 < y then y - 1 else y) =
        (List.range' (1 + a + 1) b).map (fun y => y - 1) := by
      apply List.map_congr_left
      intro y hy
      rw [List.mem_range'] at hy
      obtain ⟨i, hi, rfl⟩ := hy
      rw [if_pos (by omega)]
    rw [hcg]
    have h1a : 1 + a + 1 = (a + 1) + 1 := by omega
    rw [h1a, map_pred_range']
  rw [hleft, hright]
  have happ := List.range'_append 1 a b 1
  simp only [Nat.one_mul] at happ
  have h1a : (1 : Nat) + a = a + 1 := by omega
  rw [h1a] at happ
  rw [happ]
  congr 1
  omega

/-- Removing a track preserves the playlist invariant. -/
theorem playlistInv_remove (es : List PlaylistEntry) (t : TrackId)
    (h : PlaylistInv es) :
    PlaylistInv (remove_track_from_playlist es t).2 := by
  unfold remove_track_from_playlist
  cases hfind : es.find? (fun e => e.track == t) with
  | none => exact h
  | some e =>
    simp only
    set deleted := es.filter (fun x => !(x.track == t)) with hdel
    have hperm : es.Perm (e :: deleted) := perm_find_filter es t e h.2 hfind
    have hlen : es.length = deleted.length + 1 := by
      have := hperm.length_eq
      simpa [Nat.add_comm] using this
    have hpos : (es.map (fun x => x.pos)).Perm
        (e.pos :: deleted.map (fun x => x.pos)) := hperm.map _
    have hpp : (e.pos :: deleted.map (fun x => x.pos)).Perm
        (List.range' 1 es.length) := hpos.symm.trans h.1
    have hmem : e.pos ∈ List.range' 1 es.length :=
      hpp.mem_iff.mp (List.mem_cons_self _ _)
    have hbounds : 1 ≤ e.pos ∧ e.pos ≤ es.length := by
      rw [List.mem_range'] at hmem
      obtain ⟨i, hi, heq⟩ := hmem
      omega
    have herase : (deleted.map (fun x => x.pos)).Perm
        ((List.range' 1 es.length).erase e.pos) := by
      have := hpp.erase e.pos
      rwa [List.erase_cons_head] at this
    constructor
    · unfold PositionsDense
      have htracks : (deleted.map (fun x => if e.pos < x.pos then
          PlaylistEntry.mk x.track (x.pos - 1) else x)).map (fun x => x.pos) =
          (deleted.map (fun x => x.pos)).map (fun y => if e.pos < y then y - 1 else y) := by
        rw [List.map_map, List.map_map]
        apply List.map_congr_left
        intro x _
        simp only [Function.comp_apply]
        split <;> rfl
      rw [htracks, List.length_map]
      have hfinal := herase.map (fun y => if e.pos < y then y - 1 else y)
      rw [erase_dec_range' e.pos es.length hbounds.1 hbounds.2] at hfinal
      have hlen2 : es.length - 1 = deleted.length := by omega
      rwa [hlen2] at hfinal
    · have htr : (deleted.map (fun x => if e.pos < x.pos then
          PlaylistEntry.mk x.track (x.pos - 1) else x)).map (fun x => x.track) =
          deleted.map (fun x => x.track) := by
        rw [List.map_map]
        apply List.map_congr_left
        intro x _
        simp only [Function.comp_apply]
        split <;> rfl
      rw [htr]
      exact List.Nodup.sublist ((List.filter_sublist es).map _) h.2

/-- One playlist mutation preserves the invariant. -/
theorem playlistInv_applyOp (megaset : List TrackId) (es : List PlaylistEntry)
    (op : PlaylistOp) (h : PlaylistInv es) :
    PlaylistInv (applyPlaylistOp megaset es op) := by
  cases op with
  | add t => exact playlistInv_add megaset es t h
  | remove t => exact playlistInv_remove es t h

/-- The invariant is preserved along any operation sequence. -/
theorem playlistInv_applyOps (megaset : List TrackId) (ops : List PlaylistOp) :
    ∀ es : List PlaylistEntry, PlaylistInv es →
      PlaylistInv (applyPlaylistOps megaset es ops) := by
  induction ops with
  | nil => intro es h; exact h
  | cons op ops ih =>
    intro es h
    exact ih _ (playlistInv_applyOp megaset es op h)

/-- Claim C2: after any sequence of `add_track_to_playlist` and
`remove_track_from_playlist` calls starting from an empty playlist, the
positions of the playlist's tracks are exactly the contiguous sequence
1..N with no gaps and no duplicates, where N is the current track count
(adds insert at MAX(position)+1, removals decrement all greater
positions). -/
theorem playlist_positions_dense (megaset : List TrackId)
    (ops : List PlaylistOp) :
    PositionsDense (applyPlaylistOps megaset [] ops) := by
  have hinv : PlaylistInv ([] : List PlaylistEntry) := by
    constructor
    · unfold PositionsDense
      simp
    · simp
  exact (playlistInv_applyOps megaset ops [] hinv).1

/-! ### Migration pipeline (`migrate_music_data_from_sqlite`, lines 521-600)

The function reads the 15-column `songs` projection from the SQLite
snapshot (dynamically typed cells), replaces an empty-string cell in the
two integer columns (year at index 10, tracknumber at index 11) by null,
and bulk-inserts the rows into `megaset` with explicit id passthrough and
ON CONFLICT (filepath) DO NOTHING.  SQLite cells are modeled by the
dynamic value type `SVal`; `executemany` is modeled as a left fold of
single-row conflict-aware inserts. -/

inductive SVal where
  | null
  | int (n : Int)
  | real (q : ℚ)
  | text (s : String)
deriving DecidableEq, Inhabited

structure SongRow where
  id : Int
  filename : SVal
  filepath : SVal
  relative_path : SVal
  album_folder : SVal
  artist_folder : SVal
  filesize : SVal
  title : SVal
  artist : SVal
  album : SVal
  year : SVal
  tracknumber : SVal
  genre : SVal
  top_5_genres : SVal
  created_at : SVal
deriving DecidableEq, Inhabited

/-- Sanitation of one numeric cell: an empty-string cell becomes null. -/
def cleanCell (v : SVal) : SVal :=
  if v = .text "" then .null else v

/-- Row sanitation: year (index 10) and tracknumber (index 11) cleaned. -/
def cleanRow (r : SongRow) : SongRow :=
  { r with year := cleanCell r.year, tracknumber := cleanCell r.tracknumber }

/-- One INSERT ... ON CONFLICT (filepath) DO NOTHING. -/
def insertSong (table : List SongRow) (r : SongRow) : List SongRow :=
  if table.any (fun x => x.filepath == r.filepath) then table else table ++ [r]

/-- Shallow embedding of the write phase of `migrate_music_data_from_sqlite`:
clean all source rows, then executemany the conflict-aware insert. -/
def migrate_music_data_from_sqlite (table : List SongRow)
    (rows : List SongRow) : List SongRow :=
  (rows.map cleanRow).foldl insertSong table

/-- Decimal accumulator for the store's integer-literal coercion. -/
def pgDigitsVal : List Char → Nat → Option Nat
  | [], acc => some acc
  | c :: cs, acc => if c.isDigit then pgDigitsVal cs (acc * 10 + (c.toNat - 48)) else none

/-- Whitespace the store's integer input trims around a literal. -/
def pgWhitespace : List Char := [' ', '\t', '\n', '\r']

def pgIsSpace (c : Char) : Bool :=
  pgWhitespace.contains c

/-- Characters of a literal with the surrounding whitespace removed. -/
def pgTrimmed (cs : List Char) : List Char :=
  ((cs.dropWhile pgIsSpace).reverse.dropWhile pgIsSpace).reverse

/-- Integer value of a decimal text literal as the store's integer input
accepts it — surrounding whitespace and an optional sign allowed — and
none when unparsable. -/
def pgIntOfText (s : String) : Option Int :=
  match pgTrimmed s.data with
  | [] => none
  | '-' :: cs => if cs.isEmpty then none else (pgDigitsVal cs 0).map (fun n => -(n : Int))
  | '+' :: cs => if cs.isEmpty then none else (pgDigitsVal cs 0).map (fun n => (n : Int))
  | cs => (pgDigitsVal cs 0).map (fun n => (n : Int))

/-- Value a PostgreSQL INTEGER column stores for a bound parameter; this
models the external relational store's input coercion (null passes
through, integers pass through, a decimal text literal is parsed).
Coercions the pipeline never exercises (a real into an INTEGER column)
are out of scope and mapped to none. -/
def pgIntColumnValue : SVal → Option Int
  | .null => none
  | .int n => some n
  | .text s => pgIntOfText s
  | .real _ => none

/-- A single conflict-aware insert only ever appends. -/
theorem insertSong_append (table : List SongRow) (r : SongRow) :
    ∃ d, insertSong table r = table ++ d := by
  unfold insertSong
  split
  · exact ⟨[], by simp⟩
  · exact ⟨[r], rfl⟩

/-- The bulk insert only ever appends to the table. -/
theorem foldl_insertSong_append (rows : List SongRow) :
    ∀ table, ∃ d, rows.foldl insertSong table = table ++ d := by
  induction rows with
  | nil => intro table; exact ⟨[], by simp⟩
  | cons a rows ih =>
    intro table
    obtain ⟨d1, hd1⟩ := insertSong_append table a
    obtain ⟨d2, hd2⟩ := ih (insertSong table a)
    refine ⟨d1 ++ d2, ?_⟩
    rw [List.foldl_cons, hd2, hd1, List.append_assoc]

/-- After a single insert the inserted row's filepath is present. -/
theorem insertSong_mem_filepath (table : List SongRow) (r : SongRow) :
    r.filepath ∈ (insertSong table r).map (fun x => x.filepath) := by
  unfold insertSong
  split
  · rename_i hany
    simp only [List.any_eq_true, beq_iff_eq] at hany
    obtain ⟨x, hx, hfp⟩ := hany
    rw [← hfp]
    exact List.mem_map_of_mem _ hx
  · simp

/-- Filepath membership is monotone along the bulk insert. -/
theorem foldl_insertSong_mem_mono (rows : List SongRow) :
    ∀ (table : List SongRow) (p : SVal),
      p ∈ table.map (fun x => x.filepath) →
      p ∈ (rows.foldl insertSong table).map (fun x => x.filepath) := by
  intro table p hp
  obtain ⟨d, hd⟩ := foldl_insertSong_append rows table
  rw [hd, List.map_append]
  exact List.mem_append_left _ hp

/-- Every inserted row's filepath is present after the bulk insert. -/
theorem foldl_insertSong_mem (rows : List SongRow) :
    ∀ (table : List SongRow), ∀ r ∈ rows,
      r.filepath ∈ (rows.foldl insertSong table).map (fun x => x.filepath) := by
  induction rows with
  | nil => intro table r hr; simp at hr
  | cons a rows ih =>
    intro table r hr
    rcases List.mem_cons.mp hr with rfl | hr
    · exact foldl_insertSong_mem_mono rows (insertSong table r)
        r.filepath (insertSong_mem_filepath table r)
    · exact ih (insertSong table a) r hr

/-- Inserting rows whose filepaths are all already present is a no-op. -/
theorem foldl_insertSong_noop (rows : List SongRow) :
    ∀ (table : List SongRow),
      (∀ r ∈ rows, r.filepath ∈ table.map (fun x => x.filepath)) →
      rows.foldl insertSong table = table := by
  induction rows with
  | nil => intro table _; rfl
  | cons a rows ih =>
    intro table h
    have ha : insertSong table a = table := by
      unfold insertSong
      rw [if_pos]
      have := h a (List.mem_cons_self a rows)
      simp only [List.mem_map] at this
      obtain ⟨x, hx, hfp⟩ := this
      simp only [List.any_eq_true, beq_iff_eq]
      exact ⟨x, hx, hfp⟩
    rw [List.foldl_cons, ha]
    exact ih table (fun r hr => h r (List.mem_cons_of_mem a hr))

/-- A single conflict-aware insert preserves filepath uniqueness. -/
theorem insertSong_nodup (table : List SongRow) (r : SongRow)
    (h : (table.map (fun x => x.filepath)).Nodup) :
    ((insertSong table r).map (fun x => x.filepath)).Nodup := by
  unfold insertSong
  split
  · exact h
  · rename_i hany
    rw [List.map_append]
    apply List.Nodup.append h (by simp)
    intro p hp hq
    simp only [List.map_cons, List.map_nil, List.mem_singleton] at hq
    subst hq
    simp only [Bool.not_eq_true, List.any_eq_false, beq_eq_false_iff_ne] at hany
    simp only [List.mem_map] at hp
    obtain ⟨x, hx, hfp⟩ := hp
    exact hany x hx hfp

/-- The bulk insert preserves filepath uniqueness. -/
theorem foldl_insertSong_nodup (rows : List SongRow) :
    ∀ (table : List SongRow),
      (table.map (fun x => x.filepath)).Nodup →
      ((rows.foldl insertSong table).map (fun x => x.filepath)).Nodup := by
  induction rows with
  | nil => intro table h; exact h
  | cons a rows ih =>
    intro table h
    exact ih (insertSong table a) (insertSong_nodup table a h)

/-- Claim C5: re-running the migration over the same source snapshot is
idempotent — the second run changes nothing — and one run never alters
previously migrated rows (it only appends) and never introduces duplicate
filepaths. -/
theorem migrate_music_data_idempotent (table rows : List SongRow)
    (hnd : (table.map (fun x => x.filepath)).Nodup) :
    migrate_music_data_from_sqlite (migrate_music_data_from_sqlite table rows) rows =
      migrate_music_data_from_sqlite table rows ∧
    (∃ added, migrate_music_data_from_sqlite table rows = table ++ added) ∧
    ((migrate_music_data_from_sqlite table rows).map (fun x => x.filepath)).Nodup := by
  unfold migrate_music_data_from_sqlite
  refine ⟨?_, foldl_insertSong_append (rows.map cleanRow) table,
    foldl_insertSong_nodup (rows.map cleanRow) table hnd⟩
  apply foldl_insertSong_noop
  intro r hr
  exact foldl_insertSong_mem (rows.map cleanRow) table r hr

/-- Test rows for the migration witnesses. -/
def songRowA : SongRow :=
  { id := 1, filename := .null, filepath := .text "a", relative_path := .null,
    album_folder := .null, artist_folder := .null, filesize := .null,
    title := .null, artist := .null, album := .null,
    year := .null, tracknumber := .null,
    genre := .null, top_5_genres := .null, created_at := .null }

def songRowB : SongRow :=
  { songRowA with id := 2, filepath := .text "b" }

def songRowC6 : SongRow :=
  { songRowA with
    id := 3
    filepath := .text "c"
    year := .text ""
    tracknumber := .text "5" }

/-- Witness for `migrate_music_data_idempotent` on a one-row table and a
two-row source. -/
theorem migrate_music_data_idempotent_witness :
    (([songRowA].map (fun x => x.filepath)).Nodup) ∧
    (migrate_music_data_from_sqlite
        (migrate_music_data_from_sqlite [songRowA] [songRowB, songRowA])
        [songRowB, songRowA] =
      migrate_music_data_from_sqlite [songRowA] [songRowB, songRowA] ∧
    (∃ added, migrate_music_data_from_sqlite [songRowA] [songRowB, songRowA] =
      [songRowA] ++ added) ∧
    ((migrate_music_data_from_sqlite [songRowA] [songRowB, songRowA]).map
        (fun x => x.filepath)).Nodup) :=
  ⟨by decide, migrate_music_data_idempotent [songRowA] [songRowB, songRowA] (by decide)⟩

/-- Claim C6: the migration normalizes an empty-string cell in the numeric
columns year and tracknumber to null and leaves non-empty values
unchanged; a source row with year = "" and tracknumber = "5" is stored
with year null and tracknumber 5. -/
theorem migration_sanitizes_numeric_cells (r : SongRow)
    (hy : r.year = .text "") (ht : r.tracknumber = .text "5") :
    (cleanRow r).year = .null ∧
    pgIntColumnValue (cleanRow r).year = none ∧
    pgIntColumnValue (cleanRow r).tracknumber = some 5 ∧
    (∀ v : SVal, v ≠ .text "" → cleanCell v = v) ∧
    (∀ r2 : SongRow, (cleanRow r2).filepath = r2.filepath ∧
      (cleanRow r2).title = r2.title ∧ (cleanRow r2).id = r2.id) := by
  refine ⟨?_, ?_, ?_, ?_, ?_⟩
  · rw [cleanRow]
    simp [cleanCell, hy]
  · rw [cleanRow]
    simp [cleanCell, hy, pgIntColumnValue]
  · rw [cleanRow]
    simp only [cleanCell, ht]
    rw [if_neg (by simp)]
    rfl
  · intro v hv
    rw [cleanCell, if_neg hv]
  · intro r2
    exact ⟨rfl, rfl, rfl⟩

/-- Witness for `migration_sanitizes_numeric_cells` on the concrete row
`songRowC6`. -/
theorem migration_sanitizes_numeric_cells_witness :
    (songRowC6.year = SVal.text "") ∧ (songRowC6.tracknumber = SVal.text "5") ∧
    ((cleanRow songRowC6).year = SVal.null ∧
     pgIntColumnValue (cleanRow songRowC6).year = none ∧
     pgIntColumnValue (cleanRow songRowC6).tracknumber = some 5 ∧
     (∀ v : SVal, v ≠ .text "" → cleanCell v = v) ∧
     (∀ r2 : SongRow, (cleanRow r2).filepath = r2.filepath ∧
       (cleanRow r2).title = r2.title ∧ (cleanRow r2).id = r2.id)) :=
  ⟨rfl, rfl, migration_sanitizes_numeric_cells songRowC6 rfl rfl⟩

/-! ### Embedding ingestion (`bulk_insert_512_embeddings`, lines 603-726)

For every `megaset` row the pipeline derives a blob name from the
filepath, downloads and unpickles a per-track .pkl record, validates that
an embedding, when present, is a 512-component vector, and issues one
UPDATE merging the embedding (unconditionally) and the scalar metadata
(each field only when the stored value is Python-falsy and the blob value
qualifies).  Every per-item exception is caught, counted in
`failed_count`, and the loop continues; `processed_count` counts items
whose UPDATE ran.  The blob fetch (MinIO download + pickle load,
including the filepath-to-object-name derivation) is abstracted as a
function returning the decoded record or `none` on any fetch/decode
failure. -/

structure MegasetRow where
  id : Nat
  filepath : String
  filename : Option String
  title : Option String
  artist : Option String
  album : Option String
  year : Option Int
  tracknumber : Option Int
  genre : Option String
  filesize : Option ℚ
  embedding_512_vector : Option (List ℚ)
deriving DecidableEq

/-- Dynamically typed numeric field of a .pkl record (the code accepts an
int or a string there and maps the empty string to null). -/
inductive PklNum where
  | intVal (n : Int)
  | strVal (s : String)
deriving DecidableEq

structure PklData where
  embedding_512 : Option (List ℚ)
  filename : Option String
  title : Option String
  artist : Option String
  album : Option String
  year : Option PklNum
  tracknumber : Option PklNum
  genre : Option String
  filesize : Option ℚ
deriving DecidableEq

/-- Python truthiness of an optional string (None and "" are falsy). -/
def optStrTruthy : Option String → Bool
  | none => false
  | some s => !(s == "")

/-- Python truthiness of an optional integer (None and 0 are falsy). -/
def optIntTruthy : Option Int → Bool
  | none => false
  | some n => !(n == 0)

/-- Python truthiness of an optional rational (None and 0.0 are falsy). -/
def optRatTruthy : Option ℚ → Bool
  | none => false
  | some q => !(q == 0)

/-- Condition of `if not existing_x and pkl_data.get('x')` for a string
field: the stored value is falsy and the blob value is truthy. -/
def strUpdCond (cur blob : Option String) : Bool :=
  !(optStrTruthy cur) && optStrTruthy blob

def mergeStr (cur blob : Option String) : Option String :=
  if strUpdCond cur blob then blob else cur

/-- Condition of `if not existing_x and pkl_data.get('x') is not None` for
a numeric field: the stored value is falsy and the blob value is present. -/
def numUpdCond (cur : Option Int) (blob : Option PklNum) : Bool :=
  !(optIntTruthy cur) && blob.isSome

/-- The code's normalization of an empty-string numeric blob value. -/
def normEmptyNum : Option PklNum → Option PklNum
  | some (.strVal "") => none
  | v => v

/-- Value stored by the UPDATE for a numeric parameter: the store's input
coercion; `none` (outer) models the statement failing on an unparsable
text literal, which the per-item handler catches. -/
def castNumParam : Option PklNum → Option (Option Int)
  | none => some none
  | some (.intVal n) => some (some n)
  | some (.strVal s) => (pgIntOfText s).map some

def mergeNum (cur : Option Int) (blob : Option PklNum) : Option (Option Int) :=
  if numUpdCond cur blob then castNumParam (normEmptyNum blob) else some cur

def ratUpdCond (cur blob : Option ℚ) : Bool :=
  !(optRatTruthy cur) && blob.isSome

def mergeRat (cur blob : Option ℚ) : Option ℚ :=
  if ratUpdCond cur blob then blob else cur

/-- Is the update_fields list nonempty for this row and blob? -/
def hasUpdateFields (row : MegasetRow) (pkl : PklData) : Bool :=
  pkl.embedding_512.isSome ||
  strUpdCond row.filename pkl.filename || strUpdCond row.title pkl.title ||
  strUpdCond row.artist pkl.artist || strUpdCond row.album pkl.album ||
  numUpdCond row.year pkl.year || numUpdCond row.tracknumber pkl.tracknumber ||
  strUpdCond row.genre pkl.genre || ratUpdCond row.filesize pkl.filesize

/-- Shape validation `not isinstance(embedding_512, np.ndarray) or
embedding_512.shape != (512,)` on a present embedding. -/
def embShapeBad : Option (List ℚ) → Bool
  | some e => !(e.length == 512)
  | none => false

/-- The UPDATE of one row merging the blob: scalar fields only when the
stored value is falsy, the embedding whenever present; returns the new
row and whether any field was updated, or `none` when the statement
fails (unparsable numeric text literal). -/
def applyMerge (row : MegasetRow) (pkl : PklData) : Option (MegasetRow × Bool) :=
  match mergeNum row.year pkl.year, mergeNum row.tracknumber pkl.tracknumber with
  | some y, some tn =>
    some ({ row with
        embedding_512_vector :=
          if pkl.embedding_512.isSome then pkl.embedding_512
          else row.embedding_512_vector
        filename := mergeStr row.filename pkl.filename
        title := mergeStr row.title pkl.title
        artist := mergeStr row.artist pkl.artist
        album := mergeStr row.album pkl.album
        year := y
        tracknumber := tn
        genre := mergeStr row.genre pkl.genre
        filesize := mergeRat row.filesize pkl.filesize },
      hasUpdateFields row pkl)
  | _, _ => none

/-- Processing of one track inside the batch loop: returns the row's new
state and the (processed, failed) counter increments.  Any per-item
exception — fetch/unpickle failure, bad embedding shape, failed UPDATE —
yields an unchanged row and a failed increment. -/
def processItem (row : MegasetRow) (blob : Option PklData) :
    MegasetRow × Bool × Bool :=
  match blob with
  | none => (row, false, true)
  | some pkl =>
    if embShapeBad pkl.embedding_512 then (row, false, true)
    else
      match applyMerge row pkl with
      | none => (row, false, true)
      | some (r2, hasUpd) =>
        if hasUpd then (r2, true, false) else (row, false, false)

/-- Outcome of an item processed while the enclosing transaction is
already aborted: the blob fetch/unpickle and the shape validation are
Python-side and still fail per item, and an item whose update_fields
list is nonempty raises InFailedSqlTransaction at execute; only an item
with nothing to update escapes the failed counter.  No row changes. -/
def abortedItemFails (row : MegasetRow) (blob : Option PklData) : Bool :=
  match blob with
  | none => true
  | some pkl =>
    if embShapeBad pkl.embedding_512 then true
    else hasUpdateFields row pkl

/-- Does processing this item in a healthy transaction abort it?  True
exactly when the item's UPDATE executes and fails server-side (an
unparsable numeric text literal reaching an INTEGER column); Python-side
failures (missing blob, bad embedding shape) raise before any SQL and
leave the transaction healthy. -/
def updateAborts (row : MegasetRow) (blob : Option PklData) : Bool :=
  match blob with
  | none => false
  | some pkl =>
    if embShapeBad pkl.embedding_512 then false
    else (applyMerge row pkl).isNone

/-- State of the batch loop: the pending row states inside the single
transaction, the two counters, and whether the transaction is aborted. -/
structure BatchState where
  pending : List MegasetRow
  processed : Nat
  failed : Nat
  aborted : Bool

/-- One iteration of the batch loop.  In a healthy transaction the item
behaves as `processItem`, and a server-side UPDATE failure flips the
transaction to aborted; in an aborted transaction every executed UPDATE
raises, so rows never change and items are counted per
`abortedItemFails`. -/
def ingestStep (fetch : MegasetRow → Option PklData) (st : BatchState)
    (r : MegasetRow) : BatchState :=
  if st.aborted then
    { pending := st.pending ++ [r]
      processed := st.processed
      failed := st.failed + (if abortedItemFails r (fetch r) then 1 else 0)
      aborted := true }
  else
    { pending := st.pending ++ [(processItem r (fetch r)).1]
      processed := st.processed + (if (processItem r (fetch r)).2.1 then 1 else 0)
      failed := st.failed + (if (processItem r (fetch r)).2.2 then 1 else 0)
      aborted := updateAborts r (fetch r) }

/-- Shallow embedding of the batch of `bulk_insert_512_embeddings`: the
loop folds over all rows in one transaction starting healthy and empty,
then COMMITs once.  Committing an aborted transaction ends it with a
rollback, so every pending UPDATE is discarded and the table keeps its
original rows; the reported message carries the two counters either
way. -/
def bulk_insert_512_embeddings (fetch : MegasetRow → Option PklData)
    (rows : List MegasetRow) : List MegasetRow × Nat × Nat :=
  let final := rows.foldl (ingestStep fetch) ⟨[], 0, 0, false⟩
  (if final.aborted then rows else final.pending, final.processed, final.failed)

/-- As long as no item aborts the transaction, the batch fold processes
every row independently. -/
theorem ingest_fold_no_abort (fetch : MegasetRow → Option PklData)
    (rows : List MegasetRow) :
    ∀ st : BatchState, st.aborted = false →
      (∀ r ∈ rows, updateAborts r (fetch r) = false) →
      rows.foldl (ingestStep fetch) st =
        { pending := st.pending ++ rows.map (fun r => (processItem r (fetch r)).1)
          processed := st.processed +
            rows.countP (fun r => (processItem r (fetch r)).2.1)
          failed := st.failed +
            rows.countP (fun r => (processItem r (fetch r)).2.2)
          aborted := false } := by
  induction rows with
  | nil =>
    intro st hab _
    cases st
    simp_all
  | cons a rows ih =>
    intro st hab hno
    rw [List.foldl_cons]
    have hsa : updateAborts a (fetch a) = false :=
      hno a (List.mem_cons_self a rows)
    have hstep : ingestStep fetch st a =
        { pending := st.pending ++ [(processItem a (fetch a)).1]
          processed := st.processed + (if (processItem a (fetch a)).2.1 then 1 else 0)
          failed := st.failed + (if (processItem a (fetch a)).2.2 then 1 else 0)
          aborted := false } := by
      unfold ingestStep
      rw [if_neg (by simp [hab]), hsa]
    rw [hstep, ih _ rfl (fun r hr => hno r (List.mem_cons_of_mem a hr))]
    simp only [List.map_cons, List.countP_cons, BatchState.mk.injEq]
    refine ⟨by simp, ?_, ?_, trivial⟩
    · split <;> omega
    · split <;> omega

/-- In a batch free of server-side UPDATE failures, the resulting table
is the per-row map and the counters are the per-row counts. -/
theorem bulk_insert_512_embeddings_no_abort
    (fetch : MegasetRow → Option PklData) (rows : List MegasetRow)
    (hno : ∀ r ∈ rows, updateAborts r (fetch r) = false) :
    bulk_insert_512_embeddings fetch rows =
      (rows.map (fun r => (processItem r (fetch r)).1),
       rows.countP (fun r => (processItem r (fetch r)).2.1),
       rows.countP (fun r => (processItem r (fetch r)).2.2)) := by
  unfold bulk_insert_512_embeddings
  rw [ingest_fold_no_abort fetch rows ⟨[], 0, 0, false⟩ rfl hno]
  simp

/-- A blob whose embedding has a bad shape fails the item: row unchanged,
failed counted, not processed. -/
theorem processItem_bad_shape (row : MegasetRow) (pkl : PklData)
    (e : List ℚ) (he : pkl.embedding_512 = some e) (hlen : e.length ≠ 512) :
    processItem row (some pkl) = (row, false, true) := by
  have h1 : embShapeBad pkl.embedding_512 = true := by
    rw [he]
    simp [embShapeBad, hlen]
  simp [processItem, h1]

/-- A bad embedding shape is a Python-side ValueError raised before the
item's UPDATE, so it never aborts the transaction. -/
theorem updateAborts_bad_shape (row : MegasetRow) (pkl : PklData)
    (e : List ℚ) (he : pkl.embedding_512 = some e) (hlen : e.length ≠ 512) :
    updateAborts row (some pkl) = false := by
  have h1 : embShapeBad pkl.embedding_512 = true := by
    rw [he]
    simp [embShapeBad, hlen]
  simp [updateAborts, h1]

/-- Claim C7, counterexample rows: `cOKRow` merges successfully (stored
year 0 overwritten by the blob's 1999); `cBadRow`'s blob carries the
unparsable year "abc" with a falsy stored year, so its UPDATE fails
server-side and aborts the transaction. -/
def cOKRow : MegasetRow :=
  { id := 11, filepath := "ok.mp3", filename := none, title := none,
    artist := none, album := none, year := some 0, tracknumber := none,
    genre := none, filesize := none, embedding_512_vector := none }

def cOKPkl : PklData :=
  { embedding_512 := none, filename := none, title := none,
    artist := none, album := none, year := some (.intVal 1999),
    tracknumber := none, genre := none, filesize := none }

def cBadRow : MegasetRow :=
  { id := 12, filepath := "bad.mp3", filename := none, title := none,
    artist := none, album := none, year := some 0, tracknumber := none,
    genre := none, filesize := none, embedding_512_vector := none }

def cBadPkl : PklData :=
  { embedding_512 := none, filename := none, title := none,
    artist := none, album := none, year := some (.strVal "abc"),
    tracknumber := none, genre := none, filesize := none }

def cFetch (r : MegasetRow) : Option PklData :=
  if r.id == 11 then some cOKPkl else some cBadPkl

/-- Claim C7, counterexample: a per-item error CAN abort the batch.  In
the two-row batch [cOKRow, cBadRow] the first item's merge succeeds on
its own (year overwritten to 1999, processed counted), but the second
item's UPDATE fails server-side, aborting the transaction; the final
COMMIT rolls everything back, so the table keeps both original rows —
the first track's completed merge is lost, refuting the claim that
per-item errors never abort the batch and that processing of the
remaining tracks simply continues.  The counters are still reported. -/
theorem ingestion_batch_abort_counterexample :
    (processItem cOKRow (cFetch cOKRow)).2.1 = true ∧
    (processItem cOKRow (cFetch cOKRow)).1.year = some 1999 ∧
    updateAborts cBadRow (cFetch cBadRow) = true ∧
    (bulk_insert_512_embeddings cFetch [cOKRow, cBadRow]).1 = [cOKRow, cBadRow] ∧
    (bulk_insert_512_embeddings cFetch [cOKRow, cBadRow]).1 ≠
      [cOKRow, cBadRow].map (fun r => (processItem r (cFetch r)).1) ∧
    (bulk_insert_512_embeddings cFetch [cOKRow, cBadRow]).2.1 = 1 ∧
    (bulk_insert_512_embeddings cFetch [cOKRow, cBadRow]).2.2 = 1 := by
  decide

/-- Claim C7, amended: a blob whose embedding is present but not of
length 512 makes that one track's merge fail Python-side — the row is
unchanged, the failure is recorded in the failed counter, and the
transaction stays healthy — and, provided no item's UPDATE fails
server-side (an unparsable numeric text literal aborts the enclosing
transaction, making later UPDATEs raise and the final COMMIT roll back
every prior merge), the batch processes every other row independently
and reports the aggregate processed and failed counts. -/
theorem ingestion_partial_failure_isolation
    (fetch : MegasetRow → Option PklData) (rows : List MegasetRow)
    (r : MegasetRow) (hr : r ∈ rows) (pkl : PklData) (e : List ℚ)
    (hf : fetch r = some pkl) (he : pkl.embedding_512 = some e)
    (hlen : e.length ≠ 512)
    (hno : ∀ x ∈ rows, updateAborts x (fetch x) = false) :
    (processItem r (fetch r)).1 = r ∧
    (processItem r (fetch r)).2.2 = true ∧
    (processItem r (fetch r)).2.1 = false ∧
    updateAborts r (fetch r) = false ∧
    (bulk_insert_512_embeddings fetch rows).1 =
      rows.map (fun x => (processItem x (fetch x)).1) ∧
    (bulk_insert_512_embeddings fetch rows).2.1 =
      rows.countP (fun x => (processItem x (fetch x)).2.1) ∧
    (bulk_insert_512_embeddings fetch rows).2.2 =
      rows.countP (fun x => (processItem x (fetch x)).2.2) ∧
    0 < (bulk_insert_512_embeddings fetch rows).2.2 := by
  have hbad : processItem r (fetch r) = (r, false, true) := by
    rw [hf]
    exact processItem_bad_shape r pkl e he hlen
  have habort : updateAborts r (fetch r) = false := by
    rw [hf]
    exact updateAborts_bad_shape r pkl e he hlen
  refine ⟨by rw [hbad], by rw [hbad], by rw [hbad], habort, ?_, ?_, ?_, ?_⟩
  · rw [bulk_insert_512_embeddings_no_abort fetch rows hno]
  · rw [bulk_insert_512_embeddings_no_abort fetch rows hno]
  · rw [bulk_insert_512_embeddings_no_abort fetch rows hno]
  · rw [bulk_insert_512_embeddings_no_abort fetch rows hno]
    show 0 < rows.countP (fun x => (processItem x (fetch x)).2.2)
    rw [List.countP_pos_iff]
    exact ⟨r, hr, by rw [hbad]⟩

/-- A string field changed by the merge implies its stored value was falsy
(null or the empty string). -/
theorem mergeStr_only_if (cur blob : Option String)
    (h : mergeStr cur blob ≠ cur) : cur = none ∨ cur = some "" := by
  unfold mergeStr at h
  split at h
  · rename_i hc
    cases cur with
    | none => exact Or.inl rfl
    | some s =>
      right
      simp only [strUpdCond, optStrTruthy, Bool.and_eq_true, Bool.not_eq_eq_eq_not,
        Bool.not_true, Bool.not_eq_false, beq_iff_eq] at hc
      have hs : s = "" := by simpa using hc.1
      rw [hs]
  · exact absurd rfl h

/-- A numeric field changed by the merge implies its stored value was falsy
(null or zero). -/
theorem mergeNum_only_if (cur : Option Int) (blob : Option PklNum)
    (y : Option Int) (hm : mergeNum cur blob = some y) (h : y ≠ cur) :
    cur = none ∨ cur = some 0 := by
  unfold mergeNum at hm
  split at hm
  · rename_i hc
    cases cur with
    | none => exact Or.inl rfl
    | some n =>
      right
      simp only [numUpdCond, optIntTruthy, Bool.and_eq_true, Bool.not_eq_eq_eq_not,
        Bool.not_true, Bool.not_eq_false, beq_iff_eq] at hc
      have hn : n = 0 := by simpa using hc.1
      rw [hn]
  · exact absurd (Option.some.inj hm).symm h

/-- The filesize field changed by the merge implies its stored value was
falsy (null or zero). -/
theorem mergeRat_only_if (cur blob : Option ℚ)
    (h : mergeRat cur blob ≠ cur) : cur = none ∨ cur = some 0 := by
  unfold mergeRat at h
  split at h
  · rename_i hc
    cases cur with
    | none => exact Or.inl rfl
    | some q =>
      right
      simp only [ratUpdCond, optRatTruthy, Bool.and_eq_true, Bool.not_eq_eq_eq_not,
        Bool.not_true, Bool.not_eq_false, beq_iff_eq] at hc
      have hq : q = 0 := by simpa using hc.1
      rw [hq]
  · exact absurd rfl h

/-- A truthy stored string field is never changed by the merge. -/
theorem mergeStr_keeps_truthy (cur blob : Option String)
    (h : optStrTruthy cur = true) : mergeStr cur blob = cur := by
  unfold mergeStr strUpdCond
  rw [h]
  simp

/-- Field equations of a successful UPDATE. -/
theorem applyMerge_fields (row : MegasetRow) (pkl : PklData)
    (r2 : MegasetRow) (u : Bool) (h : applyMerge row pkl = some (r2, u)) :
    r2.filename = mergeStr row.filename pkl.filename ∧
    r2.title = mergeStr row.title pkl.title ∧
    r2.artist = mergeStr row.artist pkl.artist ∧
    r2.album = mergeStr row.album pkl.album ∧
    r2.genre = mergeStr row.genre pkl.genre ∧
    r2.filesize = mergeRat row.filesize pkl.filesize ∧
    mergeNum row.year pkl.year = some r2.year ∧
    mergeNum row.tracknumber pkl.tracknumber = some r2.tracknumber ∧
    r2.embedding_512_vector = (if pkl.embedding_512.isSome then pkl.embedding_512
      else row.embedding_512_vector) ∧
    u = hasUpdateFields row pkl := by
  unfold applyMerge at h
  cases hy : mergeNum row.year pkl.year with
  | none => rw [hy] at h; simp at h
  | some yv =>
    cases ht : mergeNum row.tracknumber pkl.tracknumber with
    | none => rw [hy, ht] at h; simp at h
    | some tv =>
      rw [hy, ht] at h
      simp only [Option.some.injEq, Prod.mk.injEq] at h
      obtain ⟨hrec, hu⟩ := h
      subst hrec
      exact ⟨rfl, rfl, rfl, rfl, rfl, rfl, rfl, rfl, rfl, hu.symm⟩

/-- Claim C4, counterexample: a stored year of 0 is neither null nor an
empty value, yet the merge overwrites it with the blob's year — the
"currently null/empty" test of the claim is actually Python falsiness.
Concretely, `c4Row` stores year 0 and title "X"; the blob carries year
1999 and title "Y"; after the merge the year is 1999 while the title
stays "X". -/
def c4Row : MegasetRow :=
  { id := 1, filepath := "a.mp3", filename := none, title := some "X",
    artist := none, album := none, year := some 0, tracknumber := none,
    genre := none, filesize := none, embedding_512_vector := none }

def c4Pkl : PklData :=
  { embedding_512 := none, filename := none, title := some "Y",
    artist := none, album := none, year := some (.intVal 1999),
    tracknumber := none, genre := none, filesize := none }

theorem ingestion_zero_year_counterexample :
    c4Row.year = some 0 ∧ c4Row.year ≠ none ∧
    (processItem c4Row (some c4Pkl)).1.year = some 1999 ∧
    (processItem c4Row (some c4Pkl)).1.year ≠ c4Row.year ∧
    (processItem c4Row (some c4Pkl)).1.title = some "X" ∧
    (processItem c4Row (some c4Pkl)).2.2 = false := by
  decide

/-- Claim C4, amended: in a successful per-track merge, each scalar field
is overwritten from the blob only if its stored value is Python-falsy —
for the string fields (filename, title, artist, album, genre) that is
exactly null-or-empty, while for the numeric fields (year, tracknumber,
filesize) a stored zero also counts as missing; the embedding vector is
overwritten unconditionally whenever the blob contains one; in
particular a stored non-null title "X" survives a blob title "Y" while
a valid blob embedding still replaces the stored embedding. -/
theorem ingestion_merge_policy (row : MegasetRow) (pkl : PklData)
    (r2 : MegasetRow) (u : Bool)
    (h : processItem row (some pkl) = (r2, u, false)) :
    (r2.filename ≠ row.filename → row.filename = none ∨ row.filename = some "") ∧
    (r2.title ≠ row.title → row.title = none ∨ row.title = some "") ∧
    (r2.artist ≠ row.artist → row.artist = none ∨ row.artist = some "") ∧
    (r2.album ≠ row.album → row.album = none ∨ row.album = some "") ∧
    (r2.genre ≠ row.genre → row.genre = none ∨ row.genre = some "") ∧
    (r2.year ≠ row.year → row.year = none ∨ row.year = some 0) ∧
    (r2.tracknumber ≠ row.tracknumber →
      row.tracknumber = none ∨ row.tracknumber = some 0) ∧
    (r2.filesize ≠ row.filesize → row.filesize = none ∨ row.filesize = some 0) ∧
    (∀ e, pkl.embedding_512 = some e → r2.embedding_512_vector = some e) ∧
    (row.title = some "X" → r2.title = some "X") := by
  by_cases hsh : embShapeBad pkl.embedding_512 = true
  · simp [processItem, hsh] at h
  · cases hmg : applyMerge row pkl with
    | none => simp [processItem, hsh, hmg] at h
    | some pr =>
      obtain ⟨r', hasU⟩ := pr
      have hfields := applyMerge_fields row pkl r' hasU hmg
      by_cases hu : hasU = true
      · have hr2 : r2 = r' ∧ u = true := by
          simp [processItem, hsh, hmg, hu] at h
          exact ⟨h.1.symm, h.2⟩
        obtain ⟨rfl, _⟩ := hr2
        obtain ⟨hfn, htl, har, hal, hg, hfs, hyr, htn, hemb, _⟩ := hfields
        refine ⟨?_, ?_, ?_, ?_, ?_, ?_, ?_, ?_, ?_, ?_⟩
        · intro hne; exact mergeStr_only_if _ _ (by rw [← hfn]; exact hne)
        · intro hne; exact mergeStr_only_if _ _ (by rw [← htl]; exact hne)
        · intro hne; exact mergeStr_only_if _ _ (by rw [← har]; exact hne)
        · intro hne; exact mergeStr_only_if _ _ (by rw [← hal]; exact hne)
        · intro hne; exact mergeStr_only_if _ _ (by rw [← hg]; exact hne)
        · intro hne; exact mergeNum_only_if _ _ _ hyr hne
        · intro hne; exact mergeNum_only_if _ _ _ htn hne
        · intro hne; exact mergeRat_only_if _ _ (by rw [← hfs]; exact hne)
        · intro e hee
          rw [hemb, hee]
          simp
        · intro hX
          rw [htl, mergeStr_keeps_truthy row.title pkl.title (by rw [hX]; rfl), hX]
      · have hr2 : r2 = row := by
          simp [processItem, hsh, hmg, hu] at h
          exact h.1.symm
        subst hr2
        refine ⟨fun hne => absurd rfl hne, fun hne => absurd rfl hne,
          fun hne => absurd rfl hne, fun hne => absurd rfl hne,
          fun hne => absurd rfl hne, fun hne => absurd rfl hne,
          fun hne => absurd rfl hne, fun hne => absurd rfl hne, ?_, fun hX => hX⟩
        intro e hee
        exfalso
        apply hu
        obtain ⟨_, _, _, _, _, _, _, _, _, huf⟩ := hfields
        rw [huf]
        unfold hasUpdateFields
        rw [hee]
        simp

/-- Witness for `ingestion_merge_policy` at the concrete row `c4Row` and
blob `c4Pkl`. -/
theorem ingestion_merge_policy_witness :
    (processItem c4Row (some c4Pkl) =
      ({ c4Row with year := some 1999 }, true, false)) ∧
    (({ c4Row with year := some 1999 } : MegasetRow).filename ≠ c4Row.filename →
      c4Row.filename = none ∨ c4Row.filename = some "") ∧
    (({ c4Row with year := some 1999 } : MegasetRow).title ≠ c4Row.title →
      c4Row.title = none ∨ c4Row.title = some "") ∧
    (({ c4Row with year := some 1999 } : MegasetRow).artist ≠ c4Row.artist →
      c4Row.artist = none ∨ c4Row.artist = some "") ∧
    (({ c4Row with year := some 1999 } : MegasetRow).album ≠ c4Row.album →
      c4Row.album = none ∨ c4Row.album = some "") ∧
    (({ c4Row with year := some 1999 } : MegasetRow).genre ≠ c4Row.genre →
      c4Row.genre = none ∨ c4Row.genre = some "") ∧
    (({ c4Row with year := some 1999 } : MegasetRow).year ≠ c4Row.year →
      c4Row.year = none ∨ c4Row.year = some 0) ∧
    (({ c4Row with year := some 1999 } : MegasetRow).tracknumber ≠ c4Row.tracknumber →
      c4Row.tracknumber = none ∨ c4Row.tracknumber = some 0) ∧
    (({ c4Row with year := some 1999 } : MegasetRow).filesize ≠ c4Row.filesize →
      c4Row.filesize = none ∨ c4Row.filesize = some 0) ∧
    (∀ e, c4Pkl.embedding_512 = some e →
      ({ c4Row with year := some 1999 } : MegasetRow).embedding_512_vector = some e) ∧
    (c4Row.title = some "X" →
      ({ c4Row with year := some 1999 } : MegasetRow).title = some "X") := by
  have h := ingestion_merge_policy c4Row c4Pkl
    { c4Row with year := some 1999 } true (by decide)
  exact ⟨by decide, h.1, h.2.1, h.2.2.1, h.2.2.2.1, h.2.2.2.2.1, h.2.2.2.2.2.1,
    h.2.2.2.2.2.2.1, h.2.2.2.2.2.2.2.1, h.2.2.2.2.2.2.2.2.1, h.2.2.2.2.2.2.2.2.2⟩

/-- Claim C10: the "currently null/empty" test of the ingestion merge is
Python truthiness: a stored year 0, tracknumber 0 or filesize 0 is
treated as missing and overwritten by the blob's value, even though such
a stored value is not null. -/
theorem ingestion_falsy_zero_overwritten (row : MegasetRow) (pkl : PklData)
    (n m : Int) (q : ℚ)
    (hy : row.year = some 0) (ht : row.tracknumber = some 0)
    (hf : row.filesize = some 0)
    (hby : pkl.year = some (.intVal n)) (hbt : pkl.tracknumber = some (.intVal m))
    (hbf : pkl.filesize = some q) :
    ∃ r2 u, applyMerge row pkl = some (r2, u) ∧
      r2.year = some n ∧ r2.tracknumber = some m ∧ r2.filesize = some q ∧
      row.year ≠ none ∧ row.tracknumber ≠ none ∧ row.filesize ≠ none := by
  have hmy : mergeNum row.year pkl.year = some (some n) := by
    rw [hy, hby]
    rfl
  have hmt : mergeNum row.tracknumber pkl.tracknumber = some (some m) := by
    rw [ht, hbt]
    rfl
  have hmf : mergeRat row.filesize pkl.filesize = some q := by
    rw [hf, hbf]
    rfl
  unfold applyMerge
  rw [hmy, hmt]
  exact ⟨_, _, rfl, rfl, rfl, hmf, by rw [hy]; simp, by rw [ht]; simp,
    by rw [hf]; simp⟩

/-- Test row and blob for the C10 witness. -/
def c10Row : MegasetRow :=
  { id := 2, filepath := "b.mp3", filename := none, title := none,
    artist := none, album := none, year := some 0, tracknumber := some 0,
    genre := none, filesize := some 0, embedding_512_vector := none }

def c10Pkl : PklData :=
  { embedding_512 := none, filename := none, title := none,
    artist := none, album := none, year := some (.intVal 1984),
    tracknumber := some (.intVal 3), genre := none, filesize := some 9 }

/-- Witness for `ingestion_falsy_zero_overwritten` at `c10Row`/`c10Pkl`. -/
theorem ingestion_falsy_zero_overwritten_witness :
    c10Row.year = some 0 ∧ c10Row.tracknumber = some 0 ∧
    c10Row.filesize = some 0 ∧ c10Pkl.year = some (.intVal 1984) ∧
    c10Pkl.tracknumber = some (.intVal 3) ∧ c10Pkl.filesize = some 9 ∧
    (∃ r2 u, applyMerge c10Row c10Pkl = some (r2, u) ∧
      r2.year = some 1984 ∧ r2.tracknumber = some 3 ∧ r2.filesize = some 9 ∧
      c10Row.year ≠ none ∧ c10Row.tracknumber ≠ none ∧ c10Row.filesize ≠ none) :=
  ⟨rfl, rfl, rfl, rfl, rfl, rfl,
   ingestion_falsy_zero_overwritten c10Row c10Pkl 1984 3 9
     rfl rfl rfl rfl rfl rfl⟩

/-! ### Similarity search (`find_similar_tracks_by_512_embedding`,
lines 729-765)

The function rejects a query that is empty or not of length 512 with
HTTP 400, and otherwise asks the store for rows with a non-null
embedding ordered by the pgvector L2 distance operator, limited to
`limit`, emitting for each row its distance and a similarity score of
1 / (1 + distance).  The L2 distance is the square root of the rational
squared distance; since the square root is monotone, ORDER BY distance
is modeled by sorting on the squared distance, and the statements below
relate the order back to the real Euclidean distance. -/

/-- Squared L2 distance of two rational vectors. -/
def sqDistVec (a b : List ℚ) : ℚ :=
  ((a.zip b).map (fun p => (p.1 - p.2) ^ 2)).sum

/-- Euclidean distance emitted for a result with squared distance dsq. -/
noncomputable def l2distOfSq (dsq : ℚ) : ℝ :=
  Real.sqrt (dsq : ℝ)

/-- similarity_score = 1 / (1 + distance). -/
noncomputable def similarity_score (dsq : ℚ) : ℝ :=
  1 / (1 + Real.sqrt (dsq : ℝ))

/-- Comparison key of the ORDER BY: the squared distance component. -/
def sndLE {β : Type} (a b : β × ℚ) : Prop := a.2 ≤ b.2

instance {β : Type} : DecidableRel (sndLE (β := β)) :=
  fun a b => inferInstanceAs (Decidable (a.2 ≤ b.2))

/-- Shallow embedding of `find_similar_tracks_by_512_embedding`: results
carry the source row and the squared L2 distance to the query. -/
def find_similar_tracks_by_512_embedding (table : List MegasetRow)
    (query_embedding : List ℚ) (limit : Nat) :
    Except Nat (List (MegasetRow × ℚ)) :=
  if query_embedding.isEmpty || !(query_embedding.length == 512) then
    .error 400
  else
    .ok ((((table.filter (fun r => r.embedding_512_vector.isSome)).map
      (fun r => (r, sqDistVec (r.embedding_512_vector.getD []) query_embedding))).insertionSort
      sndLE).take limit)

/-- Sorting by the squared-distance key: the kept page plus the dropped
rest permute the candidates, the page is sorted, and everything kept is
at most everything dropped. -/
theorem insertionSort_sndLE_spec {β : Type} (l : List (β × ℚ)) (n : Nat) :
    ((l.insertionSort sndLE).take n ++ (l.insertionSort sndLE).drop n).Perm l ∧
    ((l.insertionSort sndLE).take n).Pairwise sndLE ∧
    (∀ a ∈ (l.insertionSort sndLE).take n,
      ∀ b ∈ (l.insertionSort sndLE).drop n, sndLE a b) := by
  haveI : IsTotal (β × ℚ) sndLE := ⟨fun a b => le_total a.2 b.2⟩
  haveI : IsTrans (β × ℚ) sndLE := ⟨fun a b c hab hbc => le_trans hab hbc⟩
  have hs := List.sorted_insertionSort sndLE l
  have hperm := List.perm_insertionSort sndLE l
  refine ⟨?_, ?_, ?_⟩
  · rw [List.take_append_drop]
    exact hperm
  · exact List.Pairwise.sublist (List.take_sublist n (l.insertionSort sndLE)) hs
  · have hap := List.pairwise_append.mp
      (show ((l.insertionSort sndLE).take n ++
          (l.insertionSort sndLE).drop n).Pairwise sndLE by
        rw [List.take_append_drop]
        exact hs)
    exact hap.2.2

/-- Claim C3: for a valid 512-length query, the search succeeds and
returns at most `limit` results, all drawn from rows of the table with a
non-null embedding, sorted by non-decreasing Euclidean distance to the
query; every similarity score lies in (0, 1], equals 1 / (1 + distance)
as a fixed function of the distance alone, and that function is strictly
decreasing in the distance. -/
theorem find_similar_spec (table : List MegasetRow) (q : List ℚ)
    (limit : Nat) (hq : q.length = 512) :
    ∃ rs, find_similar_tracks_by_512_embedding table q limit = .ok rs ∧
      rs.length ≤ limit ∧
      (∀ p ∈ rs, p.1 ∈ table ∧ p.1.embedding_512_vector.isSome = true ∧
        p.2 = sqDistVec (p.1.embedding_512_vector.getD []) q) ∧
      rs.Pairwise (fun a b => l2distOfSq a.2 ≤ l2distOfSq b.2) ∧
      (∀ p ∈ rs, 0 < similarity_score p.2 ∧ similarity_score p.2 ≤ 1) ∧
      (∀ d : ℚ, similarity_score d = 1 / (1 + l2distOfSq d)) ∧
      (∀ x y : ℝ, 0 ≤ x → x < y → 1 / (1 + y) < 1 / (1 + x)) := by
  have hcond : (q.isEmpty || !(q.length == 512)) = false := by
    have h1 : (q.length == 512) = true := by simp [hq]
    have h2 : q.isEmpty = false := by
      cases q with
      | nil => simp at hq
      | cons a l => rfl
    rw [h1, h2]
    rfl
  unfold find_similar_tracks_by_512_embedding
  rw [if_neg (by simp [hcond])]
  set cands := (table.filter (fun r => r.embedding_512_vector.isSome)).map
    (fun r => (r, sqDistVec (r.embedding_512_vector.getD []) q)) with hcands
  obtain ⟨hperm, hpair, _⟩ := insertionSort_sndLE_spec cands limit
  refine ⟨_, rfl, List.length_take_le limit _, ?_, ?_, ?_, fun d => rfl, ?_⟩
  · intro p hp
    have hmem : p ∈ cands := by
      have h1 : p ∈ cands.insertionSort sndLE :=
        List.Sublist.mem hp (List.take_sublist limit _)
      exact (List.perm_insertionSort sndLE cands).mem_iff.mp h1
    rw [hcands] at hmem
    simp only [List.mem_map] at hmem
    obtain ⟨r, hr, hpr⟩ := hmem
    rw [List.mem_filter] at hr
    rw [← hpr]
    exact ⟨hr.1, hr.2, rfl⟩
  · exact hpair.imp (fun hab => Real.sqrt_le_sqrt (by exact_mod_cast hab))
  · intro p _
    constructor
    · apply one_div_pos.mpr
      have := Real.sqrt_nonneg ((p.2 : ℚ) : ℝ)
      linarith
    · rw [similarity_score, div_le_one (by
        have := Real.sqrt_nonneg ((p.2 : ℚ) : ℝ)
        linarith)]
      have := Real.sqrt_nonneg ((p.2 : ℚ) : ℝ)
      linarith
  · intro x y hx hxy
    apply one_div_lt_one_div_of_lt (by linarith) (by linarith)

/-- Test row and query for the C3 witness. -/
def qZero : List ℚ := List.replicate 512 0

def simRow : MegasetRow :=
  { id := 5, filepath := "q.mp3", filename := none, title := none,
    artist := none, album := none, year := none, tracknumber := none,
    genre := none, filesize := none, embedding_512_vector := some qZero }

/-- Witness for `find_similar_spec` on a one-row table and the zero
query vector. -/
theorem find_similar_spec_witness :
    qZero.length = 512 ∧
    (∃ rs, find_similar_tracks_by_512_embedding [simRow] qZero 5 = .ok rs ∧
      rs.length ≤ 5 ∧
      (∀ p ∈ rs, p.1 ∈ [simRow] ∧ p.1.embedding_512_vector.isSome = true ∧
        p.2 = sqDistVec (p.1.embedding_512_vector.getD []) qZero) ∧
      rs.Pairwise (fun a b => l2distOfSq a.2 ≤ l2distOfSq b.2) ∧
      (∀ p ∈ rs, 0 < similarity_score p.2 ∧ similarity_score p.2 ≤ 1) ∧
      (∀ d : ℚ, similarity_score d = 1 / (1 + l2distOfSq d)) ∧
      (∀ x y : ℝ, 0 ≤ x → x < y → 1 / (1 + y) < 1 / (1 + x))) :=
  ⟨by rw [show qZero = List.replicate 512 0 from rfl, List.length_replicate],
   find_similar_spec [simRow] qZero 5
     (by rw [show qZero = List.replicate 512 0 from rfl, List.length_replicate])⟩

/-- Claim C9: a query whose length is not 512 is rejected with the
validation error 400 — uniformly, whatever the table contents, so no
search is performed. -/
theorem find_similar_rejects_bad_length (table : List MegasetRow)
    (q : List ℚ) (limit : Nat) (h : q.length ≠ 512) :
    find_similar_tracks_by_512_embedding table q limit = .error 400 ∧
    ∀ table2, find_similar_tracks_by_512_embedding table2 q limit =
      find_similar_tracks_by_512_embedding table q limit := by
  have hcond : (q.isEmpty || !(q.length == 512)) = true := by
    have h1 : (q.length == 512) = false := by simp [h]
    rw [h1]
    simp
  constructor
  · unfold find_similar_tracks_by_512_embedding
    rw [if_pos hcond]
  · intro table2
    unfold find_similar_tracks_by_512_embedding
    rw [if_pos hcond, if_pos hcond]

/-- Witness for `find_similar_rejects_bad_length` on the empty query. -/
theorem find_similar_rejects_bad_length_witness :
    (([] : List ℚ).length ≠ 512) ∧
    (find_similar_tracks_by_512_embedding [simRow] [] 10 = .error 400 ∧
     ∀ table2, find_similar_tracks_by_512_embedding table2 [] 10 =
       find_similar_tracks_by_512_embedding [simRow] [] 10) :=
  ⟨by decide, find_similar_rejects_bad_length [simRow] [] 10 (by decide)⟩

/-- Test row and blob for the C7 witness: the blob's embedding has
length 1, not 512. -/
def c7Row : MegasetRow :=
  { id := 3, filepath := "c.mp3", filename := none, title := none,
    artist := none, album := none, year := none, tracknumber := none,
    genre := none, filesize := none, embedding_512_vector := none }

def c7Pkl : PklData :=
  { embedding_512 := some [0], filename := none, title := none,
    artist := none, album := none, year := none, tracknumber := none,
    genre := none, filesize := none }

/-- Witness for `ingestion_partial_failure_isolation` on a one-row batch
whose blob carries a length-1 embedding. -/
theorem ingestion_partial_failure_isolation_witness :
    c7Row ∈ [c7Row] ∧
    (fun _ : MegasetRow => some c7Pkl) c7Row = some c7Pkl ∧
    c7Pkl.embedding_512 = some [0] ∧
    ([(0 : ℚ)] : List ℚ).length ≠ 512 ∧
    (∀ x ∈ [c7Row], updateAborts x ((fun _ : MegasetRow => some c7Pkl) x) = false) ∧
    ((processItem c7Row ((fun _ : MegasetRow => some c7Pkl) c7Row)).1 = c7Row ∧
     (processItem c7Row ((fun _ : MegasetRow => some c7Pkl) c7Row)).2.2 = true ∧
     (processItem c7Row ((fun _ : MegasetRow => some c7Pkl) c7Row)).2.1 = false ∧
     updateAborts c7Row ((fun _ : MegasetRow => some c7Pkl) c7Row) = false ∧
     (bulk_insert_512_embeddings (fun _ => some c7Pkl) [c7Row]).1 =
       [c7Row].map (fun x => (processItem x ((fun _ : MegasetRow => some c7Pkl) x)).1) ∧
     (bulk_insert_512_embeddings (fun _ => some c7Pkl) [c7Row]).2.1 =
       [c7Row].countP (fun x => (processItem x ((fun _ : MegasetRow => some c7Pkl) x)).2.1) ∧
     (bulk_insert_512_embeddings (fun _ => some c7Pkl) [c7Row]).2.2 =
       [c7Row].countP (fun x => (processItem x ((fun _ : MegasetRow => some c7Pkl) x)).2.2) ∧
     0 < (bulk_insert_512_embeddings (fun _ => some c7Pkl) [c7Row]).2.2) :=
  ⟨List.mem_singleton.mpr rfl, rfl, rfl, by decide, by decide,
   ingestion_partial_failure_isolation (fun _ => some c7Pkl) [c7Row] c7Row
     (List.mem_singleton.mpr rfl) c7Pkl [0] rfl rfl (by decide) (by decide)⟩

/-! ### 3-D nearest neighbors (`get_track_neighbors`,
SPHERIE_service.py lines 435-511)

The function looks up the anchor track's coordinates in
`track_visualization_sphere` (404 when absent), then selects every
visualization point with a different id, joined against `megaset` on the
shared id, ordered by the Euclidean distance
SQRT((x-tx)^2 + (y-ty)^2 + (z-tz)^2) ascending, limited to `limit`.  The
visualization table's id column REFERENCES megaset(id), so in any state
the store admits, every visualization point's id exists in `megaset` —
the foreign-key hypothesis below.  As with the embedding search, the
ORDER BY on the real distance is modeled by sorting on the rational
squared distance. -/

structure VizPoint where
  id : Nat
  x : ℚ
  y : ℚ
  z : ℚ
  cluster : Int
  cluster_color : String
deriving DecidableEq

/-- Squared Euclidean distance from a point to the anchor coordinates. -/
def sqDist3 (p : VizPoint) (cx cy cz : ℚ) : ℚ :=
  (p.x - cx) ^ 2 + (p.y - cy) ^ 2 + (p.z - cz) ^ 2

/-- Shallow embedding of `get_track_neighbors`: results carry the
neighbor point and the squared distance to the anchor. -/
def get_track_neighbors (megasetIds : List Nat) (viz : List VizPoint)
    (track_id : Nat) (limit : Nat) : Except Nat (List (VizPoint × ℚ)) :=
  match viz.find? (fun p => p.id == track_id) with
  | none => .error 404
  | some anchor =>
    .ok (((((viz.filter (fun p => !(p.id == track_id))).filter
      (fun p => megasetIds.contains p.id)).map
      (fun p => (p, sqDist3 p anchor.x anchor.y anchor.z))).insertionSort
      sndLE).take limit)

/-- Claim C8: `get_track_neighbors` raises 404 when the anchor has no
visualization point; otherwise it returns at most `limit` results, each
a visualization point other than the anchor with its Euclidean distance
to the anchor, sorted by non-decreasing distance, and the returned page
together with some rest permutes the full set of other points with every
returned distance at most every left-out distance — i.e. the closest
`limit` points excluding the anchor. -/
theorem get_track_neighbors_spec (megasetIds : List Nat)
    (viz : List VizPoint) (track_id limit : Nat)
    (hfk : ∀ p ∈ viz, p.id ∈ megasetIds) :
    (viz.find? (fun p => p.id == track_id) = none →
      get_track_neighbors megasetIds viz track_id limit = .error 404) ∧
    (∀ anchor, viz.find? (fun p => p.id == track_id) = some anchor →
      ∃ rs rest, get_track_neighbors megasetIds viz track_id limit = .ok rs ∧
        rs.length ≤ limit ∧
        (∀ p ∈ rs, p.1 ∈ viz ∧ p.1.id ≠ track_id ∧
          p.2 = sqDist3 p.1 anchor.x anchor.y anchor.z) ∧
        rs.Pairwise (fun a b => l2distOfSq a.2 ≤ l2distOfSq b.2) ∧
        (rs ++ rest).Perm ((viz.filter (fun p => !(p.id == track_id))).map
          (fun p => (p, sqDist3 p anchor.x anchor.y anchor.z))) ∧
        (∀ a ∈ rs, ∀ b ∈ rest, l2distOfSq a.2 ≤ l2distOfSq b.2)) := by
  constructor
  · intro hnone
    unfold get_track_neighbors
    rw [hnone]
  · intro anchor hanchor
    unfold get_track_neighbors
    rw [hanchor]
    have hjoin : (viz.filter (fun p => !(p.id == track_id))).filter
        (fun p => megasetIds.contains p.id) =
        viz.filter (fun p => !(p.id == track_id)) := by
      rw [List.filter_eq_self]
      intro p hp
      simpa using hfk p (List.mem_of_mem_filter hp)
    rw [hjoin]
    set cands := (viz.filter (fun p => !(p.id == track_id))).map
      (fun p => (p, sqDist3 p anchor.x anchor.y anchor.z)) with hcands
    obtain ⟨hperm, hpair, hcross⟩ := insertionSort_sndLE_spec cands limit
    refine ⟨_, _, rfl, List.length_take_le limit _, ?_, ?_, hperm, ?_⟩
    · intro p hp
      have hmem : p ∈ cands := by
        have h1 : p ∈ cands.insertionSort sndLE :=
          List.Sublist.mem hp (List.take_sublist limit _)
        exact (List.perm_insertionSort sndLE cands).mem_iff.mp h1
      rw [hcands] at hmem
      simp only [List.mem_map] at hmem
      obtain ⟨r, hr, hpr⟩ := hmem
      rw [List.mem_filter] at hr
      rw [← hpr]
      refine ⟨hr.1, ?_, rfl⟩
      have := hr.2
      simpa using this
    · exact hpair.imp (fun hab => Real.sqrt_le_sqrt (by exact_mod_cast hab))
    · intro a ha b hb
      exact Real.sqrt_le_sqrt (by exact_mod_cast hcross a ha b hb)

/-- Test points for the C8 witness. -/
def vizA : VizPoint :=
  { id := 1, x := 0, y := 0, z := 0, cluster := 0, cluster_color := "#111111" }

def vizB : VizPoint :=
  { id := 2, x := 1, y := 0, z := 0, cluster := 0, cluster_color := "#222222" }

/-- Witness for `get_track_neighbors_spec` on a two-point table. -/
theorem get_track_neighbors_spec_witness :
    (∀ p ∈ [vizA, vizB], p.id ∈ [1, 2]) ∧
    (([vizA, vizB].find? (fun p => p.id == 1) = none →
      get_track_neighbors [1, 2] [vizA, vizB] 1 20 = .error 404) ∧
    (∀ anchor, [vizA, vizB].find? (fun p => p.id == 1) = some anchor →
      ∃ rs rest, get_track_neighbors [1, 2] [vizA, vizB] 1 20 = .ok rs ∧
        rs.length ≤ 20 ∧
        (∀ p ∈ rs, p.1 ∈ [vizA, vizB] ∧ p.1.id ≠ 1 ∧
          p.2 = sqDist3 p.1 anchor.x anchor.y anchor.z) ∧
        rs.Pairwise (fun a b => l2distOfSq a.2 ≤ l2distOfSq b.2) ∧
        (rs ++ rest).Perm (([vizA, vizB].filter (fun p => !(p.id == 1))).map
          (fun p => (p, sqDist3 p anchor.x anchor.y anchor.z))) ∧
        (∀ a ∈ rs, ∀ b ∈ rest, l2distOfSq a.2 ≤ l2distOfSq b.2))) :=
  ⟨by decide, get_track_neighbors_spec [1, 2] [vizA, vizB] 1 20 (by decide)⟩

end GlasgowAPI
